import Mathlib

/-!
Shallow embedding of the nav-ingestion pipeline: the feed walker
(src/nav_client.py), the multi-table persistence step (src/db_writer.py) and
the sync orchestration loop (src/main.py).

Modelling conventions:
* timestamps are integers; `datetime.fromisoformat` is an abstract parameter
  `iso : String → Option Int` (`none` where Python raises an error);
* Python string truthiness is `truthyStr`; Python `or` on strings is `pyOr`;
* the loosely typed `employer` JSON entry is the sum type `EmployerVal`;
* the thread pool of main.py is abstracted to sequential processing in
  submission order (every claim checked here is insensitive to the
  completion order of the per-item fetches);
* an exception raised while fetching or committing one item (the body of the
  try block in main.py, lines 156-199) is the `FetchOut.err` outcome;
* database tables are lists of typed rows; one `save_job` transaction is one
  state transition on `DBState`.
-/

/-- Python truthiness for optional strings: `None` and the empty string are
falsy; a truthy value is returned unchanged. -/
def truthyStr : Option String → Option String
  | none => none
  | some s => if s = "" then none else some s

/-- Python `a or b` on optional strings. -/
def pyOr (a b : Option String) : Option String :=
  match truthyStr a with
  | some s => some s
  | none => b

/-- One entry of `ad_content["workLocations"]`. -/
structure WorkLocation where
  address : Option String
  city : Option String
  postalCode : Option String
  county : Option String
  municipal : Option String
  country : Option String
deriving DecidableEq, Repr

/-- One entry of `ad_content["contactList"]`. -/
structure ContactInfo where
  name : Option String
  email : Option String
  phone : Option String
  role : Option String
  title : Option String
deriving DecidableEq, Repr

/-- One entry of `ad_content["categoryList"]`. -/
structure CategoryInfo where
  categoryType : Option String
  code : Option String
  name : Option String
deriving DecidableEq, Repr

/-- One entry of `ad_content["occupationCategories"]`. -/
structure OccupationInfo where
  level1 : Option String
  level2 : Option String
deriving DecidableEq, Repr

/-- The structured (dict) form of the `employer` entry. -/
structure EmployerObj where
  name : Option String
  orgnr : Option String
  description : Option String
  homepage : Option String
deriving DecidableEq, Repr

/-- The loosely typed `employer` entry of `ad_content`: the key may be
absent (`ad.get("employer", {})` then yields `{}`), hold a dict, hold JSON
null (Python `None`), a bare string, or a number. -/
inductive EmployerVal where
  | missing
  | obj (e : EmployerObj)
  | pynone
  | pystr (s : String)
  | pyint (n : Int)
deriving DecidableEq, Repr

/-- Python `str(...)` applied to the employer values that reach the `else`
branch of the `isinstance(employer, dict)` test in `_upsert_nav_job`.
The `missing` and `obj` cases never reach that branch. -/
def pyStr : EmployerVal → String
  | .missing => ""
  | .obj _ => ""
  | .pynone => "None"
  | .pystr s => s
  | .pyint n => toString n

/-- The `ad_content` payload of a detail record, with exactly the keys that
`_upsert_nav_job` and the child-table inserts read. -/
structure AdContent where
  link : Option String
  title : Option String
  description : Option String
  employer : EmployerVal
  workLocations : List WorkLocation
  contactList : List ContactInfo
  categoryList : List CategoryInfo
  occupationCategories : List OccupationInfo
  extent : Option String
  engagementtype : Option String
  sector : Option String
  applicationDue : Option String
  source : Option String
  updated : Option String
  expires : Option String
  starttime : Option String
  positioncount : Option String
  applicationUrl : Option String
  published : Option String
  jobtitle : Option String
deriving DecidableEq, Repr

/-- The empty dict used as default for a missing `ad_content`. -/
def emptyAd : AdContent :=
  { link := none, title := none, description := none, employer := .missing,
    workLocations := [], contactList := [], categoryList := [],
    occupationCategories := [], extent := none, engagementtype := none,
    sector := none, applicationDue := none, source := none, updated := none,
    expires := none, starttime := none, positioncount := none,
    applicationUrl := none, published := none, jobtitle := none }

/-- A `/api/v1/feedentry/{id}` response: the detail record saved by
`DBWriter.save_job`. -/
structure Detail where
  uuid : Option String
  status : Option String
  sistEndret : Option String
  ad_content : Option AdContent
deriving DecidableEq, Repr

/-- A row of the `nav_jobs` table: the named parameters of the insert in
`DBWriter._upsert_nav_job`. -/
structure JobRow where
  nav_uuid : Option String
  job_url : Option String
  job_title : Option String
  company : Option String
  job_text_html : Option String
  kommune : Option String
  fylke : Option String
  omfang : Option String
  ansettelsesform : Option String
  sektor : Option String
  frist_dato : Option Int
  yrkeskode : Option String
  kilde : Option String
  nav_updated_at : Option Int
  status : Option String
  expires : Option Int
  engagementtype : Option String
  extent : Option String
  starttime : Option String
  positioncount : Option String
  sector : Option String
  applicationurl : Option String
  created_at : Int
  published : Option Int
  job_title_official : Option String
  employer_orgnr : Option String
  employer_description : Option String
  employer_homepage : Option String
deriving DecidableEq, Repr

/-- The `parse_dt` helper of `_upsert_nav_job`: falsy input maps to `None`,
otherwise `datetime.fromisoformat` with `ValueError` mapped to `None`. -/
def parse_dt (iso : String → Option Int) : Option String → Option Int
  | none => none
  | some s => if s = "" then none else iso s

/-- The default (all-`None`) work location used when `workLocations` is
empty. -/
def emptyLocation : WorkLocation :=
  { address := none, city := none, postalCode := none, county := none,
    municipal := none, country := none }

/-- The parameter dict computed by `DBWriter._upsert_nav_job` (lines 60-137),
including the second, strict-parse assignment of `frist_dato`. -/
def mkParams (iso : String → Option Int) (now : Int) (job : Detail) : JobRow :=
  let ad := job.ad_content.getD emptyAd
  let employerName : Option String :=
    match ad.employer with
    | .obj e => e.name
    | .missing => none
    | v => some (pyStr v)
  let employerOrgnr : Option String :=
    match ad.employer with
    | .obj e => e.orgnr
    | _ => none
  let employerDesc : Option String :=
    match ad.employer with
    | .obj e => e.description
    | _ => none
  let employerHomepage : Option String :=
    match ad.employer with
    | .obj e => e.homepage
    | _ => none
  let loc := ad.workLocations.headD emptyLocation
  { nav_uuid := job.uuid,
    job_url := ad.link,
    job_title := ad.title,
    company := employerName,
    job_text_html := ad.description,
    kommune := loc.municipal,
    fylke := loc.county,
    omfang := ad.extent,
    ansettelsesform := ad.engagementtype,
    sektor := ad.sector,
    frist_dato := (match ad.applicationDue with
      | none => none
      | some s => iso s),
    yrkeskode := none,
    kilde := ad.source,
    nav_updated_at := (match parse_dt iso job.sistEndret with
      | some d => some d
      | none => parse_dt iso ad.updated),
    status := job.status,
    expires := parse_dt iso ad.expires,
    engagementtype := ad.engagementtype,
    extent := ad.extent,
    starttime := ad.starttime,
    positioncount := ad.positioncount,
    sector := ad.sector,
    applicationurl := ad.applicationUrl,
    created_at := now,
    published := parse_dt iso ad.published,
    job_title_official := ad.jobtitle,
    employer_orgnr := employerOrgnr,
    employer_description := employerDesc,
    employer_homepage := employerHomepage }

/-- The `ON CONFLICT (nav_uuid) DO UPDATE SET` column list of
`_upsert_nav_job`: every inserted column except `nav_uuid`, `yrkeskode` and
`created_at` is overwritten with the excluded (new) value. -/
def applyUpdate (old new : JobRow) : JobRow :=
  { new with nav_uuid := old.nav_uuid, yrkeskode := old.yrkeskode,
             created_at := old.created_at }

/-- `INSERT ... ON CONFLICT (nav_uuid) DO UPDATE` on the `nav_jobs` table. -/
def upsertRow (jobs : List JobRow) (p : JobRow) : List JobRow :=
  if jobs.any (fun r => decide (r.nav_uuid = p.nav_uuid)) then
    jobs.map (fun r => if r.nav_uuid = p.nav_uuid then applyUpdate r p else r)
  else
    jobs ++ [p]

/-- A row of `nav_job_locations`. -/
structure LocationRow where
  nav_uuid : String
  address : Option String
  city : Option String
  postal_code : Option String
  county : Option String
  municipal : Option String
  country : Option String
deriving DecidableEq, Repr

/-- A row of `nav_job_contacts`. -/
structure ContactRow where
  nav_uuid : String
  name : Option String
  email : Option String
  phone : Option String
  role : Option String
  title : Option String
deriving DecidableEq, Repr

/-- A row of `nav_job_categories`. -/
structure CategoryRow where
  nav_uuid : String
  category_type : Option String
  code : Option String
  name : Option String
deriving DecidableEq, Repr

/-- A row of `nav_job_occupations`. -/
structure OccupationRow where
  nav_uuid : String
  level1 : Option String
  level2 : Option String
deriving DecidableEq, Repr

/-- The deduplication key of `_insert_locations`:
`(address, city, postalCode, country, municipal, county)`. -/
abbrev LocKey := Option String × Option String × Option String ×
  Option String × Option String × Option String

/-- The deduplication key of `_insert_categories`:
`(categoryType, code, name)`. -/
abbrev CatKey := Option String × Option String × Option String

/-- The deduplication key of `_insert_occupations`: `(level1, level2)`. -/
abbrev OccKey := Option String × Option String

def locKey (l : WorkLocation) : LocKey :=
  (l.address, l.city, l.postalCode, l.country, l.municipal, l.county)

def catKey (c : CategoryInfo) : CatKey :=
  (c.categoryType, c.code, c.name)

def occKey (o : OccupationInfo) : OccKey :=
  (o.level1, o.level2)

def mkLocationRow (u : String) (l : WorkLocation) : LocationRow :=
  { nav_uuid := u, address := l.address, city := l.city,
    postal_code := l.postalCode, county := l.county,
    municipal := l.municipal, country := l.country }

def mkContactRow (u : String) (c : ContactInfo) : ContactRow :=
  { nav_uuid := u, name := c.name, email := c.email, phone := c.phone,
    role := c.role, title := c.title }

def mkCategoryRow (u : String) (c : CategoryInfo) : CategoryRow :=
  { nav_uuid := u, category_type := c.categoryType, code := c.code,
    name := c.name }

def mkOccupationRow (u : String) (o : OccupationInfo) : OccupationRow :=
  { nav_uuid := u, level1 := o.level1, level2 := o.level2 }

/-- The seen-set loop of `DBWriter._insert_locations`: keep the first entry
for each key, drop later entries with an already seen key. -/
def insertLocationsAux (u : String) :
    List WorkLocation → List LocKey → List LocationRow
  | [], _ => []
  | l :: rest, seen =>
    if locKey l ∈ seen then insertLocationsAux u rest seen
    else mkLocationRow u l :: insertLocationsAux u rest (locKey l :: seen)

/-- The rows inserted by `DBWriter._insert_locations`. -/
def insertLocations (u : String) (ls : List WorkLocation) : List LocationRow :=
  insertLocationsAux u ls []

/-- The rows inserted by `DBWriter._insert_contacts`: every entry verbatim,
no deduplication. -/
def insertContacts (u : String) (cs : List ContactInfo) : List ContactRow :=
  cs.map (mkContactRow u)

/-- The seen-set loop of `DBWriter._insert_categories`. -/
def insertCategoriesAux (u : String) :
    List CategoryInfo → List CatKey → List CategoryRow
  | [], _ => []
  | c :: rest, seen =>
    if catKey c ∈ seen then insertCategoriesAux u rest seen
    else mkCategoryRow u c :: insertCategoriesAux u rest (catKey c :: seen)

/-- The rows inserted by `DBWriter._insert_categories`. -/
def insertCategories (u : String) (cs : List CategoryInfo) : List CategoryRow :=
  insertCategoriesAux u cs []

/-- The seen-set loop of `DBWriter._insert_occupations`. -/
def insertOccupationsAux (u : String) :
    List OccupationInfo → List OccKey → List OccupationRow
  | [], _ => []
  | o :: rest, seen =>
    if occKey o ∈ seen then insertOccupationsAux u rest seen
    else mkOccupationRow u o :: insertOccupationsAux u rest (occKey o :: seen)

/-- The rows inserted by `DBWriter._insert_occupations`. -/
def insertOccupations (u : String) (os : List OccupationInfo) :
    List OccupationRow :=
  insertOccupationsAux u os []

/-- The feed metadata dict passed to `update_feed_state`. -/
structure FeedMetadata where
  title : Option String
  home_page_url : Option String
  feed_url : Option String
  description : Option String
deriving DecidableEq, Repr

/-- `metadata = metadata or {}` when no metadata is supplied. -/
def emptyMetadata : FeedMetadata :=
  { title := none, home_page_url := none, feed_url := none,
    description := none }

/-- A row of the `nav_feed_state` table. -/
structure FeedStateRow where
  next_url : String
  last_job_date : Option Int
  updated_at : Int
  title : Option String
  home_page_url : Option String
  feed_url : Option String
  description : Option String
deriving DecidableEq, Repr

/-- The whole database state touched by the pipeline. -/
structure DBState where
  nav_jobs : List JobRow
  nav_job_locations : List LocationRow
  nav_job_contacts : List ContactRow
  nav_job_categories : List CategoryRow
  nav_job_occupations : List OccupationRow
  nav_feed_state : List FeedStateRow
deriving DecidableEq, Repr

def emptyDB : DBState :=
  { nav_jobs := [], nav_job_locations := [], nav_job_contacts := [],
    nav_job_categories := [], nav_job_occupations := [], nav_feed_state := [] }

/-- `DBWriter.save_job`: reject a falsy uuid before any write, otherwise one
transaction that upserts the parent row and, for each child table, deletes
every row of this uuid and inserts the freshly derived set. -/
def save_job (iso : String → Option Int) (now : Int) (db : DBState)
    (job : Detail) : DBState :=
  match truthyStr job.uuid with
  | none => db
  | some u =>
    let ad := job.ad_content.getD emptyAd
    { db with
      nav_jobs := upsertRow db.nav_jobs (mkParams iso now job),
      nav_job_locations :=
        db.nav_job_locations.filter (fun r => decide (r.nav_uuid ≠ u)) ++
          insertLocations u ad.workLocations,
      nav_job_contacts :=
        db.nav_job_contacts.filter (fun r => decide (r.nav_uuid ≠ u)) ++
          insertContacts u ad.contactList,
      nav_job_categories :=
        db.nav_job_categories.filter (fun r => decide (r.nav_uuid ≠ u)) ++
          insertCategories u ad.categoryList,
      nav_job_occupations :=
        db.nav_job_occupations.filter (fun r => decide (r.nav_uuid ≠ u)) ++
          insertOccupations u ad.occupationCategories }

/-- `DBWriter.update_feed_state`: one transaction that deletes every
`nav_feed_state` row and inserts the single new cursor row. -/
def update_feed_state (db : DBState) (next_url : String)
    (last_job_date : Option Int) (md : FeedMetadata) (now : Int) : DBState :=
  let cleared : List FeedStateRow := []
  { db with nav_feed_state := cleared ++
      [ { next_url := next_url, last_job_date := last_job_date,
          updated_at := now, title := md.title,
          home_page_url := md.home_page_url, feed_url := md.feed_url,
          description := md.description } ] }

/-- A feed item reference as it appears in a page's `items` list. -/
structure ItemRef where
  id : Option String
  date_modified : Option String
deriving DecidableEq, Repr

/-- A `/api/v1/feed` page payload, with the keys main.py and the walker
read. -/
structure PageData where
  id : Option String
  next_id : Option String
  next_url : Option String
  title : Option String
  description : Option String
  items : List ItemRef
deriving DecidableEq, Repr

/-- The page-chasing loop of `NavClient.fetch_feed_pages`: yield the current
page, stop when `next_id` is falsy, otherwise fetch the page at `next_id`.
`fuel` bounds the number of `next` hops taken. -/
def feedChain (byId : String → PageData) : Nat → PageData → List PageData
  | 0, p => [p]
  | fuel + 1, p =>
    p :: (match truthyStr p.next_id with
      | none => []
      | some nid => feedChain byId fuel (byId nid))

/-- `NavClient.fetch_feed_pages`: the first page comes from the explicit
start locator when given, otherwise from the first/last anchor. -/
def fetch_feed_pages (byId : String → PageData) (anchor : Bool → PageData)
    (start : Option String) (lastFlag : Bool) (fuel : Nat) : List PageData :=
  match start with
  | some sid => feedChain byId fuel (byId sid)
  | none => feedChain byId fuel (anchor lastFlag)

/-- The outcome of the try block around one item's detail fetch and commit
in main.py: either an exception (`err`) or the fetched payload, which may be
falsy (`ok none`). -/
inductive FetchOut where
  | err
  | ok (d : Option Detail)
deriving DecidableEq, Repr

/-- The run configuration and external collaborators of main.py's loop. -/
structure Cfg where
  iso : String → Option Int
  fetch : Option String → FetchOut
  filter_date : Option Int
  limit : Option Nat
  now : Int

/-- The mutable run state of main.py's loop. -/
structure RunAcc where
  db : DBState
  fetched_count : Nat
  skipped_count : Nat
  errors : List (Option String)
deriving DecidableEq, Repr

def initAcc (db : DBState) : RunAcc :=
  { db := db, fetched_count := 0, skipped_count := 0, errors := [] }

/-- The Python condition `args.limit and fetched_count >= args.limit`:
a limit of `None` or `0` is falsy and never triggers. -/
def limitHit : Option Nat → Nat → Bool
  | none, _ => false
  | some n, c => decide (n ≠ 0) && decide (n ≤ c)

/-- The summary-date pre-filter test of main.py (lines 122-132): `true`
exactly when a filter date is set and the item's `date_modified` parses to a
timestamp strictly before it. -/
def summaryOld (iso : String → Option Int) (fd : Option Int)
    (it : ItemRef) : Bool :=
  match fd with
  | none => false
  | some T =>
    match it.date_modified with
    | none => false
    | some s =>
      match iso s with
      | none => false
      | some d => decide (d < T)

/-- The pre-filter loop of main.py (lines 113-133): deduplicate by item id
(ids are recorded as seen before the date test), skip and count items whose
summary date is old, keep the rest in order.  Returns the `items_to_fetch`
list and the number of skips counted. -/
def prefilterAux (iso : String → Option Int) (fd : Option Int) :
    List ItemRef → List (Option String) → List ItemRef × Nat
  | [], _ => ([], 0)
  | it :: rest, seen =>
    if it.id ∈ seen then prefilterAux iso fd rest seen
    else
      let r := prefilterAux iso fd rest (it.id :: seen)
      if summaryOld iso fd it then (r.1, r.2 + 1)
      else (it :: r.1, r.2)

/-- The post-fetch detail-date filter of main.py (lines 174-184): `true`
exactly when a filter date is set, `published or updated` is truthy, parses,
and is strictly before the filter date. -/
def detailOld (iso : String → Option Int) (fd : Option Int)
    (d : Detail) : Bool :=
  match fd with
  | none => false
  | some T =>
    let ad := d.ad_content.getD emptyAd
    match truthyStr (pyOr ad.published ad.updated) with
    | none => false
    | some s =>
      match iso s with
      | none => false
      | some dt => decide (dt < T)

/-- The per-item body of main.py's result loop (lines 156-199), processed in
submission order: an exception is logged (appended to `errors`) and the loop
continues; a falsy payload, an inactive or contentless record, and an
old-detail-date record each count one skip; otherwise the record is saved
and the loop stops once the saved count reaches a positive limit. -/
def processItems (cfg : Cfg) : List ItemRef → RunAcc → RunAcc
  | [], acc => acc
  | it :: rest, acc =>
    match cfg.fetch it.id with
    | .err =>
      processItems cfg rest { acc with errors := acc.errors ++ [it.id] }
    | .ok none =>
      processItems cfg rest
        { acc with skipped_count := acc.skipped_count + 1 }
    | .ok (some d) =>
      if d.status = some "INACTIVE" ∨ d.ad_content = none then
        processItems cfg rest
          { acc with skipped_count := acc.skipped_count + 1 }
      else if detailOld cfg.iso cfg.filter_date d then
        processItems cfg rest
          { acc with skipped_count := acc.skipped_count + 1 }
      else
        let acc2 := { acc with db := save_job cfg.iso cfg.now acc.db d,
                               fetched_count := acc.fetched_count + 1 }
        if limitHit cfg.limit acc2.fetched_count then acc2
        else processItems cfg rest acc2

/-- The metadata dict main.py passes to `update_feed_state` after a page. -/
def pageMeta (page : PageData) : FeedMetadata :=
  { title := page.title, description := page.description,
    home_page_url := none, feed_url := none }

/-- The per-page body of main.py's loop (lines 108-236).  Returns the new
run state and `true` when the record limit stops the run.  When every item
is pre-filtered the page is skipped (state advanced without metadata when
`next_url` is truthy); when the limit is hit the cursor is rewritten to the
current page (when it has an id); otherwise the cursor advances to the
page's `next_url`, or to the current page itself at the end of the feed. -/
def processPage (cfg : Cfg) (page : PageData) (acc : RunAcc) :
    RunAcc × Bool :=
  let pre := prefilterAux cfg.iso cfg.filter_date page.items []
  let acc1 := { acc with skipped_count := acc.skipped_count + pre.2 }
  if pre.1.isEmpty then
    match truthyStr page.next_url with
    | some nu =>
      ({ acc1 with
          db := update_feed_state acc1.db nu none emptyMetadata cfg.now },
        false)
    | none => (acc1, false)
  else
    let acc2 := processItems cfg pre.1 acc1
    if limitHit cfg.limit acc2.fetched_count then
      match truthyStr page.id with
      | some cid =>
        ({ acc2 with
            db := update_feed_state acc2.db ("/api/v1/feed/" ++ cid) none
              (pageMeta page) cfg.now },
          true)
      | none => (acc2, true)
    else
      match truthyStr page.next_url with
      | some nu =>
        ({ acc2 with
            db := update_feed_state acc2.db nu none (pageMeta page) cfg.now },
          false)
      | none =>
        match truthyStr page.id with
        | some cid =>
          ({ acc2 with
              db := update_feed_state acc2.db ("/api/v1/feed/" ++ cid) none
                (pageMeta page) cfg.now },
            false)
        | none => (acc2, false)

/-- The page loop of main.py: process pages in order, stopping early when a
page reports that the record limit was hit. -/
def runPages (cfg : Cfg) : List PageData → RunAcc → RunAcc
  | [], acc => acc
  | p :: rest, acc =>
    let r := processPage cfg p acc
    if r.2 then r.1 else runPages cfg rest r.1

/-- One whole sync run over a given page sequence, starting from a database
state with zero counters. -/
def runSync (cfg : Cfg) (db : DBState) (pages : List PageData) : RunAcc :=
  runPages cfg pages (initAcc db)

/-- The classification of one `items_to_fetch` entry by the result loop. -/
inductive ItemOutcome where
  | errored
  | emptyDetail
  | statusFiltered
  | dateFiltered
  | saved
deriving DecidableEq, Repr

/-- Which outcome the result loop of main.py assigns to one item. -/
def classify (cfg : Cfg) (it : ItemRef) : ItemOutcome :=
  match cfg.fetch it.id with
  | .err => .errored
  | .ok none => .emptyDetail
  | .ok (some d) =>
    if d.status = some "INACTIVE" ∨ d.ad_content = none then .statusFiltered
    else if detailOld cfg.iso cfg.filter_date d then .dateFiltered
    else .saved

/-- Outcomes that increment `skipped_count`. -/
def isSkippedOutcome : ItemOutcome → Bool
  | .emptyDetail => true
  | .statusFiltered => true
  | .dateFiltered => true
  | _ => false

/-- The detail payloads that the result loop saves, in submission order. -/
def savedDetails (cfg : Cfg) (items : List ItemRef) : List Detail :=
  items.filterMap (fun it =>
    match cfg.fetch it.id with
    | .ok (some d) => if classify cfg it = .saved then some d else none
    | _ => none)

/-- The ids of the items whose processing raised, in submission order. -/
def erroredIds (cfg : Cfg) (items : List ItemRef) : List (Option String) :=
  (items.filter (fun it => decide (classify cfg it = .errored))).map
    (fun it => it.id)

/-- The deduplication key read back from a stored location row. -/
def locRowKey (r : LocationRow) : LocKey :=
  (r.address, r.city, r.postal_code, r.country, r.municipal, r.county)

/-- The deduplication key read back from a stored category row. -/
def catRowKey (r : CategoryRow) : CatKey :=
  (r.category_type, r.code, r.name)

/-- The deduplication key read back from a stored occupation row. -/
def occRowKey (r : OccupationRow) : OccKey :=
  (r.level1, r.level2)

/-! ### Concrete fixtures used by witnesses and counterexamples -/

/-- An ISO parser that accepts nothing. -/
def isoNone : String → Option Int := fun _ => none

def badDatesAd : AdContent :=
  { emptyAd with applicationDue := some "Snarest", published := some "p1",
                 expires := some "e1", updated := some "w1" }

def badDatesJob : Detail :=
  { uuid := some "A", status := some "ACTIVE", sistEndret := some "s1",
    ad_content := some badDatesAd }

def nullEmployerAd : AdContent := { emptyAd with employer := .pynone }

def nullEmployerJob : Detail :=
  { uuid := some "J1", status := some "ACTIVE", sistEndret := none,
    ad_content := some nullEmployerAd }

def noUuidJob : Detail :=
  { uuid := some "", status := some "ACTIVE", sistEndret := none,
    ad_content := none }

def idemLoc : WorkLocation :=
  { address := some "Main st 1", city := some "Oslo",
    postalCode := some "0001", county := some "Oslo",
    municipal := some "Oslo", country := some "NO" }

def idemContact : ContactInfo :=
  { name := some "Kari", email := none, phone := none, role := none,
    title := none }

def idemCat : CategoryInfo :=
  { categoryType := some "STYRK08", code := some "1234",
    name := some "Utvikler" }

def idemOcc : OccupationInfo :=
  { level1 := some "IT", level2 := some "Utvikler" }

/-- A record with a duplicated location entry and one of each other child. -/
def idemJob : Detail :=
  { uuid := some "A", status := some "ACTIVE", sistEndret := none,
    ad_content := some { emptyAd with
      workLocations := [idemLoc, idemLoc], contactList := [idemContact],
      categoryList := [idemCat], occupationCategories := [idemOcc] } }

def pageB : PageData :=
  { id := some "B", next_id := none, next_url := none, title := none,
    description := none, items := [] }

def pageA : PageData :=
  { id := some "A", next_id := some "B", next_url := some "/api/v1/feed/B",
    title := none, description := none, items := [] }

/-- A two-page demo feed: page A links to page B, B is the last page. -/
def demoById : String → PageData := fun s => if s = "A" then pageA else pageB

def demoAnchor : Bool → PageData := fun _ => pageA

/-- A demo ISO parser: "OLD" parses to 0, "NEW" to 10, all else fails. -/
def isoDemo : String → Option Int := fun s =>
  if s = "OLD" then some 0 else if s = "NEW" then some 10 else none

def activeAd : AdContent := { emptyAd with published := some "NEW" }

def detailA : Detail :=
  { uuid := some "A", status := some "ACTIVE", sistEndret := none,
    ad_content := some activeAd }

def detailB : Detail :=
  { uuid := some "B", status := some "ACTIVE", sistEndret := none,
    ad_content := some activeAd }

def itemOldA : ItemRef := { id := some "A", date_modified := some "OLD" }

def itemA : ItemRef := { id := some "A", date_modified := some "NEW" }

def itemB : ItemRef := { id := some "B", date_modified := some "NEW" }

/-- A fetcher that answers items A and B and raises on anything else. -/
def demoFetch : Option String → FetchOut := fun oid =>
  if oid = some "A" then .ok (some detailA)
  else if oid = some "B" then .ok (some detailB)
  else .err

/-- A fetcher that raises on item A and answers item B. -/
def errFetchA : Option String → FetchOut := fun oid =>
  if oid = some "B" then .ok (some detailB) else .err

def pageOldA : PageData :=
  { id := some "P1", next_id := none, next_url := none, title := none,
    description := none, items := [itemOldA] }

def pageAB : PageData :=
  { id := some "P1", next_id := none, next_url := none, title := none,
    description := none, items := [itemA, itemB] }

def pageNoId : PageData :=
  { id := none, next_id := none, next_url := none, title := none,
    description := none, items := [itemA, itemB] }

def cfgC1 : Cfg :=
  { iso := isoDemo, fetch := demoFetch, filter_date := some 5,
    limit := none, now := 0 }

def cfgLimit0 : Cfg :=
  { iso := isoDemo, fetch := demoFetch, filter_date := none,
    limit := some 0, now := 0 }

def cfgLimit1 : Cfg :=
  { iso := isoDemo, fetch := demoFetch, filter_date := none,
    limit := some 1, now := 0 }

def cfgErr : Cfg :=
  { iso := isoDemo, fetch := errFetchA, filter_date := none,
    limit := none, now := 0 }

/-! ### Helper lemmas -/

theorem parse_dt_of_unparsable (iso : String → Option Int) (s : String)
    (h : iso s = none) : parse_dt iso (some s) = none := by
  by_cases hs : s = "" <;> simp [parse_dt, hs, h]

theorem locRowKey_mk (u : String) (l : WorkLocation) :
    locRowKey (mkLocationRow u l) = locKey l := rfl

theorem catRowKey_mk (u : String) (c : CategoryInfo) :
    catRowKey (mkCategoryRow u c) = catKey c := rfl

theorem occRowKey_mk (u : String) (o : OccupationInfo) :
    occRowKey (mkOccupationRow u o) = occKey o := rfl

theorem insertLocationsAux_mem_key (u : String) (ls : List WorkLocation) :
    ∀ (seen : List LocKey) (k : LocKey),
      k ∈ (insertLocationsAux u ls seen).map locRowKey ↔
        (k ∈ ls.map locKey ∧ k ∉ seen) := by
  induction ls with
  | nil => intro seen k; simp [insertLocationsAux]
  | cons l rest ih =>
    intro seen k
    by_cases h : locKey l ∈ seen
    · have hks : k = locKey l → k ∈ seen := fun e => e ▸ h
      simp only [insertLocationsAux, if_pos h, List.map_cons, List.mem_cons,
        ih]
      tauto
    · have hks : k = locKey l → k ∉ seen := fun e => e ▸ h
      simp only [insertLocationsAux, if_neg h, List.map_cons, List.mem_cons,
        ih, locRowKey_mk]
      tauto

theorem insertLocationsAux_nodup (u : String) (ls : List WorkLocation) :
    ∀ seen : List LocKey,
      ((insertLocationsAux u ls seen).map locRowKey).Nodup := by
  induction ls with
  | nil => intro seen; simp [insertLocationsAux]
  | cons l rest ih =>
    intro seen
    by_cases h : locKey l ∈ seen
    · simpa only [insertLocationsAux, if_pos h] using ih seen
    · simp only [insertLocationsAux, if_neg h, List.map_cons,
        List.nodup_cons, locRowKey_mk]
      refine ⟨fun hmem => ?_, ih _⟩
      rw [insertLocationsAux_mem_key] at hmem
      exact hmem.2 (List.mem_cons_self _ _)

theorem insertLocationsAux_uuid (u : String) (ls : List WorkLocation) :
    ∀ (seen : List LocKey) (r : LocationRow),
      r ∈ insertLocationsAux u ls seen → r.nav_uuid = u := by
  induction ls with
  | nil => intro seen r hr; simp [insertLocationsAux] at hr
  | cons l rest ih =>
    intro seen r hr
    by_cases h : locKey l ∈ seen
    · rw [insertLocationsAux, if_pos h] at hr
      exact ih _ _ hr
    · rw [insertLocationsAux, if_neg h] at hr
      rcases List.mem_cons.mp hr with h1 | h1
      · subst h1; rfl
      · exact ih _ _ h1

theorem insertCategoriesAux_mem_key (u : String) (cs : List CategoryInfo) :
    ∀ (seen : List CatKey) (k : CatKey),
      k ∈ (insertCategoriesAux u cs seen).map catRowKey ↔
        (k ∈ cs.map catKey ∧ k ∉ seen) := by
  induction cs with
  | nil => intro seen k; simp [insertCategoriesAux]
  | cons c rest ih =>
    intro seen k
    by_cases h : catKey c ∈ seen
    · have hks : k = catKey c → k ∈ seen := fun e => e ▸ h
      simp only [insertCategoriesAux, if_pos h, List.map_cons, List.mem_cons,
        ih]
      tauto
    · have hks : k = catKey c → k ∉ seen := fun e => e ▸ h
      simp only [insertCategoriesAux, if_neg h, List.map_cons, List.mem_cons,
        ih, catRowKey_mk]
      tauto

theorem insertCategoriesAux_nodup (u : String) (cs : List CategoryInfo) :
    ∀ seen : List CatKey,
      ((insertCategoriesAux u cs seen).map catRowKey).Nodup := by
  induction cs with
  | nil => intro seen; simp [insertCategoriesAux]
  | cons c rest ih =>
    intro seen
    by_cases h : catKey c ∈ seen
    · simpa only [insertCategoriesAux, if_pos h] using ih seen
    · simp only [insertCategoriesAux, if_neg h, List.map_cons,
        List.nodup_cons, catRowKey_mk]
      refine ⟨fun hmem => ?_, ih _⟩
      rw [insertCategoriesAux_mem_key] at hmem
      exact hmem.2 (List.mem_cons_self _ _)

theorem insertCategoriesAux_uuid (u : String) (cs : List CategoryInfo) :
    ∀ (seen : List CatKey) (r : CategoryRow),
      r ∈ insertCategoriesAux u cs seen → r.nav_uuid = u := by
  induction cs with
  | nil => intro seen r hr; simp [insertCategoriesAux] at hr
  | cons c rest ih =>
    intro seen r hr
    by_cases h : catKey c ∈ seen
    · rw [insertCategoriesAux, if_pos h] at hr
      exact ih _ _ hr
    · rw [insertCategoriesAux, if_neg h] at hr
      rcases List.mem_cons.mp hr with h1 | h1
      · subst h1; rfl
      · exact ih _ _ h1

theorem insertOccupationsAux_mem_key (u : String) (os : List OccupationInfo) :
    ∀ (seen : List OccKey) (k : OccKey),
      k ∈ (insertOccupationsAux u os seen).map occRowKey ↔
        (k ∈ os.map occKey ∧ k ∉ seen) := by
  induction os with
  | nil => intro seen k; simp [insertOccupationsAux]
  | cons o rest ih =>
    intro seen k
    by_cases h : occKey o ∈ seen
    · have hks : k = occKey o → k ∈ seen := fun e => e ▸ h
      simp only [insertOccupationsAux, if_pos h, List.map_cons,
        List.mem_cons, ih]
      tauto
    · have hks : k = occKey o → k ∉ seen := fun e => e ▸ h
      simp only [insertOccupationsAux, if_neg h, List.map_cons,
        List.mem_cons, ih, occRowKey_mk]
      tauto

theorem insertOccupationsAux_nodup (u : String) (os : List OccupationInfo) :
    ∀ seen : List OccKey,
      ((insertOccupationsAux u os seen).map occRowKey).Nodup := by
  induction os with
  | nil => intro seen; simp [insertOccupationsAux]
  | cons o rest ih =>
    intro seen
    by_cases h : occKey o ∈ seen
    · simpa only [insertOccupationsAux, if_pos h] using ih seen
    · simp only [insertOccupationsAux, if_neg h, List.map_cons,
        List.nodup_cons, occRowKey_mk]
      refine ⟨fun hmem => ?_, ih _⟩
      rw [insertOccupationsAux_mem_key] at hmem
      exact hmem.2 (List.mem_cons_self _ _)

theorem insertOccupationsAux_uuid (u : String) (os : List OccupationInfo) :
    ∀ (seen : List OccKey) (r : OccupationRow),
      r ∈ insertOccupationsAux u os seen → r.nav_uuid = u := by
  induction os with
  | nil => intro seen r hr; simp [insertOccupationsAux] at hr
  | cons o rest ih =>
    intro seen r hr
    by_cases h : occKey o ∈ seen
    · rw [insertOccupationsAux, if_pos h] at hr
      exact ih _ _ hr
    · rw [insertOccupationsAux, if_neg h] at hr
      rcases List.mem_cons.mp hr with h1 | h1
      · subst h1; rfl
      · exact ih _ _ h1

/-! ### Claim theorems -/

/-- Claim C9: for every input record whose primary identity (`uuid`) is
missing or empty, `save_job` performs no storage writes at all: the record
is rejected before any persistence operation and the database state is
unchanged. -/
theorem save_job_missing_uuid_no_write (iso : String → Option Int)
    (now : Int) (db : DBState) (job : Detail)
    (h : truthyStr job.uuid = none) :
    save_job iso now db job = db := by
  simp [save_job, h]

theorem save_job_missing_uuid_no_write_witness :
    truthyStr noUuidJob.uuid = none ∧
    save_job isoNone 0 emptyDB noUuidJob = emptyDB :=
  ⟨by decide,
   save_job_missing_uuid_no_write isoNone 0 emptyDB noUuidJob (by decide)⟩

/-- Claim C6: every write through `update_feed_state` deletes all previous
cursor rows and inserts the single new one inside one transaction, so after
any sequence of writes ending in a write exactly one logical cursor row
exists; no state with two cursor rows is reachable. -/
theorem cursor_single_row_after_writes (db : DBState) (nu : String)
    (ld : Option Int) (md : FeedMetadata) (t : Int)
    (ws : List (String × Option Int × FeedMetadata × Int)) :
    ((ws.foldl
        (fun s w => update_feed_state s w.1 w.2.1 w.2.2.1 w.2.2.2)
        (update_feed_state db nu ld md t)).nav_feed_state).length = 1 := by
  induction ws generalizing db nu ld md t with
  | nil => rfl
  | cons w ws ih =>
    simpa only [List.foldl_cons] using
      ih (update_feed_state db nu ld md t) w.1 w.2.1 w.2.2.1 w.2.2.2

/-- Claim C10: when the `employer` entry is present but neither a dict nor
absent (JSON null, a bare string, or a number), the stored company name is
the Python `str(...)` rendering of the value — in particular JSON null is
stored as the literal text "None" — while orgnr, description and homepage
are stored as absent. -/
theorem employer_nondict_stringified (iso : String → Option Int) (now : Int)
    (job : Detail) (ad : AdContent) (had : job.ad_content = some ad)
    (hmiss : ad.employer ≠ EmployerVal.missing)
    (hobj : ∀ e, ad.employer ≠ EmployerVal.obj e) :
    (mkParams iso now job).company = some (pyStr ad.employer) ∧
    (mkParams iso now job).employer_orgnr = none ∧
    (mkParams iso now job).employer_description = none ∧
    (mkParams iso now job).employer_homepage = none ∧
    pyStr EmployerVal.pynone = "None" := by
  cases hv : ad.employer with
  | missing => exact absurd hv hmiss
  | obj e => exact absurd hv (hobj e)
  | pynone => simp [mkParams, had, hv, pyStr]
  | pystr s => simp [mkParams, had, hv, pyStr]
  | pyint n => simp [mkParams, had, hv, pyStr]

theorem employer_nondict_stringified_witness :
    (mkParams isoNone 0 nullEmployerJob).company = some "None" ∧
    (mkParams isoNone 0 nullEmployerJob).employer_orgnr = none ∧
    (mkParams isoNone 0 nullEmployerJob).employer_description = none ∧
    (mkParams isoNone 0 nullEmployerJob).employer_homepage = none := by
  have h := employer_nondict_stringified isoNone 0 nullEmployerJob
    nullEmployerAd rfl (by decide)
    (fun e he => by simp [nullEmployerAd, emptyAd] at he)
  exact ⟨h.1, h.2.1, h.2.2.1, h.2.2.2.1⟩

/-- Claim C8: a detail record whose date fields (application deadline,
published, expires, upstream update) hold strings the ISO parser rejects is
still saved, and each corresponding stored field is null; an unparsable
date never fails the record. -/
theorem unparsable_dates_stored_null (iso : String → Option Int) (now : Int)
    (db : DBState) (job : Detail) (ad : AdContent) (u : String)
    (hu : truthyStr job.uuid = some u) (had : job.ad_content = some ad) :
    (∀ s, ad.applicationDue = some s → iso s = none →
        (mkParams iso now job).frist_dato = none) ∧
    (∀ s, ad.published = some s → iso s = none →
        (mkParams iso now job).published = none) ∧
    (∀ s, ad.expires = some s → iso s = none →
        (mkParams iso now job).expires = none) ∧
    (∀ s t, job.sistEndret = some s → iso s = none →
        ad.updated = some t → iso t = none →
        (mkParams iso now job).nav_updated_at = none) ∧
    (save_job iso now db job).nav_jobs =
      upsertRow db.nav_jobs (mkParams iso now job) := by
  refine ⟨?_, ?_, ?_, ?_, ?_⟩
  · intro s h1 h2
    simp [mkParams, had, h1, h2]
  · intro s h1 h2
    simp [mkParams, had, h1, parse_dt_of_unparsable iso s h2]
  · intro s h1 h2
    simp [mkParams, had, h1, parse_dt_of_unparsable iso s h2]
  · intro s t h1 h2 h3 h4
    simp [mkParams, had, h1, h3, parse_dt_of_unparsable iso s h2,
      parse_dt_of_unparsable iso t h4]
  · simp [save_job, hu]

theorem unparsable_dates_stored_null_witness :
    (mkParams isoNone 0 badDatesJob).frist_dato = none ∧
    (mkParams isoNone 0 badDatesJob).published = none ∧
    (mkParams isoNone 0 badDatesJob).expires = none ∧
    (mkParams isoNone 0 badDatesJob).nav_updated_at = none ∧
    (save_job isoNone 0 emptyDB badDatesJob).nav_jobs =
      upsertRow emptyDB.nav_jobs (mkParams isoNone 0 badDatesJob) := by
  have h := unparsable_dates_stored_null isoNone 0 emptyDB badDatesJob
    badDatesAd "A" (by decide) rfl
  exact ⟨h.1 "Snarest" rfl rfl, h.2.1 "p1" rfl rfl, h.2.2.1 "e1" rfl rfl,
    h.2.2.2.1 "s1" "w1" rfl rfl rfl rfl, h.2.2.2.2⟩

/-- Claim C7: stored child collections are deduplicated exactly by the
specified keys — locations by (address, city, postal code, country,
municipality, county), categories by (category type, code, name),
occupations by (level1, level2) — keeping one row per distinct key of the
input (so entries differing in any key field stay distinct rows), while
contacts are stored verbatim with no deduplication. -/
theorem child_collections_dedup (u : String) (ls : List WorkLocation)
    (cs : List ContactInfo) (cats : List CategoryInfo)
    (occs : List OccupationInfo) :
    ((insertLocations u ls).map locRowKey).Nodup ∧
    (∀ k : LocKey,
      k ∈ (insertLocations u ls).map locRowKey ↔ k ∈ ls.map locKey) ∧
    ((insertCategories u cats).map catRowKey).Nodup ∧
    (∀ k : CatKey,
      k ∈ (insertCategories u cats).map catRowKey ↔ k ∈ cats.map catKey) ∧
    ((insertOccupations u occs).map occRowKey).Nodup ∧
    (∀ k : OccKey,
      k ∈ (insertOccupations u occs).map occRowKey ↔ k ∈ occs.map occKey) ∧
    insertContacts u cs = cs.map (mkContactRow u) := by
  refine ⟨insertLocationsAux_nodup u ls [], ?_,
    insertCategoriesAux_nodup u cats [], ?_,
    insertOccupationsAux_nodup u occs [], ?_, rfl⟩
  · intro k
    rw [insertLocations, insertLocationsAux_mem_key]
    simp
  · intro k
    rw [insertCategories, insertCategoriesAux_mem_key]
    simp
  · intro k
    rw [insertOccupations, insertOccupationsAux_mem_key]
    simp

/-! ### Idempotence of `save_job` (C2) -/

theorem mkParams_nav_uuid (iso : String → Option Int) (t : Int)
    (job : Detail) : (mkParams iso t job).nav_uuid = job.uuid := rfl

theorem applyUpdate_nav_uuid (r p : JobRow) :
    (applyUpdate r p).nav_uuid = r.nav_uuid := rfl

theorem applyUpdate_mkParams_self (iso : String → Option Int) (t1 t2 : Int)
    (job : Detail) :
    applyUpdate (mkParams iso t1 job) (mkParams iso t2 job) =
      mkParams iso t1 job := rfl

theorem applyUpdate_applyUpdate (iso : String → Option Int) (t1 t2 : Int)
    (job : Detail) (r : JobRow) :
    applyUpdate (applyUpdate r (mkParams iso t1 job)) (mkParams iso t2 job) =
      applyUpdate r (mkParams iso t1 job) := rfl

theorem map_self_of_fixed {α : Type} (l : List α) (f : α → α)
    (h : ∀ x ∈ l, f x = x) : l.map f = l := by
  induction l with
  | nil => rfl
  | cons a l ih =>
    simp only [List.map_cons, h a (List.mem_cons_self a l)]
    rw [ih (fun x hx => h x (List.mem_cons_of_mem a hx))]

theorem upsertRow_mem_uuid (jobs : List JobRow) (p : JobRow) :
    ∃ r ∈ upsertRow jobs p, r.nav_uuid = p.nav_uuid := by
  by_cases h : jobs.any (fun r => decide (r.nav_uuid = p.nav_uuid)) = true
  · obtain ⟨r0, hr0, hp0⟩ := List.any_eq_true.mp h
    have hp0 : r0.nav_uuid = p.nav_uuid := of_decide_eq_true hp0
    refine ⟨applyUpdate r0 p, ?_, hp0⟩
    rw [upsertRow, if_pos h]
    have : (fun r => if r.nav_uuid = p.nav_uuid then applyUpdate r p else r)
        r0 = applyUpdate r0 p := if_pos hp0
    exact this ▸ List.mem_map_of_mem _ hr0
  · refine ⟨p, ?_, rfl⟩
    rw [upsertRow, if_neg h]
    exact List.mem_append_right jobs (List.mem_singleton_self p)

theorem upsertRow_twice (jobs : List JobRow) (iso : String → Option Int)
    (t1 t2 : Int) (job : Detail) :
    upsertRow (upsertRow jobs (mkParams iso t1 job)) (mkParams iso t2 job) =
      upsertRow jobs (mkParams iso t1 job) := by
  set p1 := mkParams iso t1 job with hp1
  set p2 := mkParams iso t2 job with hp2
  have huu : p2.nav_uuid = p1.nav_uuid := rfl
  have hany : (upsertRow jobs p1).any
      (fun r => decide (r.nav_uuid = p2.nav_uuid)) = true := by
    obtain ⟨r, hr, he⟩ := upsertRow_mem_uuid jobs p1
    exact List.any_eq_true.mpr ⟨r, hr, decide_eq_true (huu ▸ he)⟩
  rw [upsertRow, if_pos hany]
  apply map_self_of_fixed
  intro r hr
  rw [upsertRow] at hr
  by_cases h : jobs.any (fun r => decide (r.nav_uuid = p1.nav_uuid)) = true
  · rw [if_pos h] at hr
    obtain ⟨r0, hr0, hre⟩ := List.mem_map.mp hr
    by_cases h0 : r0.nav_uuid = p1.nav_uuid
    · rw [if_pos h0] at hre
      subst hre
      rw [if_pos (by rw [applyUpdate_nav_uuid, huu]; exact h0)]
      exact hp1 ▸ hp2 ▸ applyUpdate_applyUpdate iso t1 t2 job r0
    · rw [if_neg h0] at hre
      subst hre
      rw [if_neg (by rw [huu]; exact h0)]
  · rw [if_neg h] at hr
    rcases List.mem_append.mp hr with h1 | h1
    · have h0 : ¬ r.nav_uuid = p1.nav_uuid := by
        intro he
        exact h (List.any_eq_true.mpr ⟨r, h1, decide_eq_true he⟩)
      rw [if_neg (by rw [huu]; exact h0)]
    · rw [List.mem_singleton.mp h1, if_pos huu.symm]
      exact hp1 ▸ hp2 ▸ applyUpdate_mkParams_self iso t1 t2 job

theorem filter_delete_insert {α : Type} (q : α → Bool) (A New : List α)
    (hNew : ∀ r ∈ New, q r = false) :
    (A.filter q ++ New).filter q ++ New = A.filter q ++ New := by
  have h1 : New.filter q = [] := by
    rw [List.filter_eq_nil_iff]
    intro a ha
    simp [hNew a ha]
  have h2 : (A.filter q).filter q = A.filter q := by
    rw [List.filter_filter]
    simp
  rw [List.filter_append, h1, h2, List.append_nil]

/-- Claim C2: for every detail record with a non-empty identity, saving the
same record twice leaves the storage state identical to the state after the
first save: the parent row keeps the same field values (no field drift) and
each child collection holds exactly the same row set as after the first
save. -/
theorem save_job_idempotent (iso : String → Option Int) (t1 t2 : Int)
    (db : DBState) (job : Detail) (u : String)
    (hu : truthyStr job.uuid = some u) :
    save_job iso t2 (save_job iso t1 db job) job =
      save_job iso t1 db job := by
  simp only [save_job, hu]
  simp only [DBState.mk.injEq]
  refine ⟨upsertRow_twice db.nav_jobs iso t1 t2 job, ?_, ?_, ?_, ?_, trivial⟩
  · exact filter_delete_insert _ _ _ (fun r hr => by
      simp [insertLocationsAux_uuid u _ [] r hr])
  · exact filter_delete_insert _ _ _ (fun r hr => by
      obtain ⟨c, hc, hce⟩ := List.mem_map.mp hr
      simp [← hce, mkContactRow])
  · exact filter_delete_insert _ _ _ (fun r hr => by
      simp [insertCategoriesAux_uuid u _ [] r hr])
  · exact filter_delete_insert _ _ _ (fun r hr => by
      simp [insertOccupationsAux_uuid u _ [] r hr])

theorem save_job_idempotent_witness :
    truthyStr idemJob.uuid = some "A" ∧
    save_job isoNone 1 (save_job isoNone 0 emptyDB idemJob) idemJob =
      save_job isoNone 0 emptyDB idemJob :=
  ⟨by decide,
   save_job_idempotent isoNone 0 1 emptyDB idemJob "A" (by decide)⟩

/-! ### The feed walker (C5) -/

theorem feedChain_get_zero (byId : String → PageData) (fuel : Nat)
    (p : PageData) : (feedChain byId fuel p).get? 0 = some p := by
  cases fuel <;> rfl

theorem feedChain_chain (byId : String → PageData) :
    ∀ (fuel : Nat) (p : PageData) (i : Nat) (pi pj : PageData),
      (feedChain byId fuel p).get? i = some pi →
      (feedChain byId fuel p).get? (i + 1) = some pj →
      ∃ nid, truthyStr pi.next_id = some nid ∧ pj = byId nid := by
  intro fuel
  induction fuel with
  | zero =>
    intro p i pi pj h1 h2
    cases i <;> simp [feedChain] at h2
  | succ n ih =>
    intro p i pi pj h1 h2
    cases hnext : truthyStr p.next_id with
    | none =>
      simp only [feedChain, hnext] at h1 h2
      cases i <;> simp at h2
    | some nid =>
      simp only [feedChain, hnext] at h1 h2
      cases i with
      | zero =>
        simp only [List.get?_cons_zero, Option.some.injEq] at h1
        simp only [List.get?_cons_succ] at h2
        have h0 := feedChain_get_zero byId n (byId nid)
        rw [h2] at h0
        exact ⟨nid, h1 ▸ hnext, (Option.some.injEq _ _).mp h0⟩
      | succ m =>
        simp only [List.get?_cons_succ] at h1 h2
        exact ih (byId nid) m pi pj h1 h2

theorem feedChain_last_no_next (byId : String → PageData) :
    ∀ (fuel : Nat) (p : PageData) (i : Nat) (pi : PageData),
      (feedChain byId fuel p).get? i = some pi →
      (feedChain byId fuel p).get? (i + 1) = none →
      (feedChain byId fuel p).length < fuel + 1 →
      truthyStr pi.next_id = none := by
  intro fuel
  induction fuel with
  | zero =>
    intro p i pi h1 h2 h3
    simp [feedChain] at h3
  | succ n ih =>
    intro p i pi h1 h2 h3
    cases hnext : truthyStr p.next_id with
    | none =>
      simp only [feedChain, hnext] at h1
      cases i with
      | zero =>
        simp only [List.get?_cons_zero, Option.some.injEq] at h1
        exact h1 ▸ hnext
      | succ m => simp at h1
    | some nid =>
      simp only [feedChain, hnext] at h1 h2 h3
      cases i with
      | zero =>
        simp only [List.get?_cons_succ] at h2
        have h0 := feedChain_get_zero byId n (byId nid)
        rw [h2] at h0
        cases h0
      | succ m =>
        simp only [List.get?_cons_succ] at h1 h2
        simp only [List.length_cons] at h3
        exact ih (byId nid) m pi h1 h2 (by omega)

/-- Claim C5: for every start locator L, the walker's page sequence starts
with exactly the page at L (no earlier page is fetched), each later element
is the page reached through the previous page's `next` pointer, and — when
the fuel bound is not what cut the sequence short — the sequence ends
exactly at a page whose `next` pointer is falsy. -/
theorem walker_pages_from_locator (byId : String → PageData)
    (anchor : Bool → PageData) (L : String) (lastFlag : Bool) (fuel : Nat) :
    (fetch_feed_pages byId anchor (some L) lastFlag fuel).get? 0 =
        some (byId L) ∧
    (∀ (i : Nat) (pi pj : PageData),
      (fetch_feed_pages byId anchor (some L) lastFlag fuel).get? i =
          some pi →
      (fetch_feed_pages byId anchor (some L) lastFlag fuel).get? (i + 1) =
          some pj →
      ∃ nid, truthyStr pi.next_id = some nid ∧ pj = byId nid) ∧
    (∀ (i : Nat) (pi : PageData),
      (fetch_feed_pages byId anchor (some L) lastFlag fuel).get? i =
          some pi →
      (fetch_feed_pages byId anchor (some L) lastFlag fuel).get? (i + 1) =
          none →
      (fetch_feed_pages byId anchor (some L) lastFlag fuel).length <
          fuel + 1 →
      truthyStr pi.next_id = none) := by
  refine ⟨feedChain_get_zero byId fuel (byId L), ?_, ?_⟩
  · intro i pi pj h1 h2
    exact feedChain_chain byId fuel (byId L) i pi pj h1 h2
  · intro i pi h1 h2 h3
    exact feedChain_last_no_next byId fuel (byId L) i pi h1 h2 h3

theorem walker_pages_from_locator_witness :
    (fetch_feed_pages demoById demoAnchor (some "A") false 5).get? 0 =
        some (demoById "A") ∧
    truthyStr pageB.next_id = none :=
  ⟨(walker_pages_from_locator demoById demoAnchor "A" false 5).1,
   (walker_pages_from_locator demoById demoAnchor "A" false 5).2.2 1 pageB
     (by decide) (by decide) (by decide)⟩

/-! ### The summary-date pre-filter (C1) -/

/-- Claim C1 counterexample: with threshold 5, item A's summary timestamp
("OLD", parsing to 0) is before the threshold while its fetched detail
timestamp ("NEW", parsing to 10) is at/after it, and the detail would pass
the post-fetch filter — yet the run commits nothing: the summary pre-filter
alone excludes the record, contradicting the claim that such a record is
committed. -/
theorem summary_prefilter_hard_counterexample :
    isoDemo "OLD" = some 0 ∧ (0 : Int) < 5 ∧
    isoDemo "NEW" = some 10 ∧ ¬ (10 : Int) < 5 ∧
    detailOld isoDemo (some 5) detailA = false ∧
    (runSync cfgC1 emptyDB [pageOldA]).db.nav_jobs = [] ∧
    (runSync cfgC1 emptyDB [pageOldA]).skipped_count = 1 := by
  refine ⟨rfl, by decide, rfl, by decide, by decide, by decide, by decide⟩

/-- Claim C1 amended: the summary-timestamp pre-filter is a hard exclusion,
not merely an optimization: an item occurrence whose summary timestamp
parses to a value before the threshold never survives the pre-filter, so
its detail is never fetched and the record is not committed even when its
detail timestamp is at/after the threshold.  Equivalently, every item in
the surviving `items_to_fetch` list has a summary timestamp that is
missing, unparsable, or not before the threshold. -/
theorem summary_prefilter_hard (iso : String → Option Int) (T : Int)
    (items : List ItemRef) (seen : List (Option String)) (it : ItemRef)
    (hmem : it ∈ (prefilterAux iso (some T) items seen).1) :
    summaryOld iso (some T) it = false := by
  induction items generalizing seen with
  | nil => simp [prefilterAux] at hmem
  | cons a rest ih =>
    by_cases hid : a.id ∈ seen
    · rw [prefilterAux, if_pos hid] at hmem
      exact ih seen hmem
    · rw [prefilterAux, if_neg hid] at hmem
      by_cases hs : summaryOld iso (some T) a = true
      · rw [if_pos hs] at hmem
        exact ih (a.id :: seen) hmem
      · rw [if_neg hs] at hmem
        rcases List.mem_cons.mp hmem with h1 | h1
        · exact h1 ▸ Bool.eq_false_iff.mpr hs
        · exact ih (a.id :: seen) h1

theorem summary_prefilter_hard_witness :
    itemB ∈ (prefilterAux isoDemo (some 5) [itemOldA, itemB] []).1 ∧
    summaryOld isoDemo (some 5) itemB = false :=
  ⟨by decide,
   summary_prefilter_hard isoDemo 5 [itemOldA, itemB] [] itemB (by decide)⟩

/-! ### Error handling in the result loop (C4) -/

/-- Claim C4 counterexample: item A's fetch raises, item B is saved.  The
failure is logged (A's id is in the error log) and processing continues
(B is still saved), but the failure is NOT counted in the skipped-record
summary: `skipped_count` stays 0, contradicting the claim that the failure
is counted there. -/
theorem error_not_counted_counterexample :
    errFetchA (some "A") = FetchOut.err ∧
    (runSync cfgErr emptyDB [pageAB]).errors = [some "A"] ∧
    (runSync cfgErr emptyDB [pageAB]).skipped_count = 0 ∧
    (runSync cfgErr emptyDB [pageAB]).fetched_count = 1 := by
  refine ⟨by decide, by decide, by decide, by decide⟩

/-- Claim C4 amended: when processing one record raises during fetch or
commit, the item's id is appended to the run's error log and processing of
the page's other records continues; the failure is logged but not added to
the skipped count.  In a run without a record limit the final state
decomposes exactly per item: the database is the fold of saves over the
saved items, the saved count grows by the number of saved items, the
skipped count grows by exactly the number of empty/inactive/date-filtered
items, and the error log gains exactly the errored items' ids in order —
every skip and every error is attributable to a specific item and reason. -/
theorem item_errors_logged_not_skipped (cfg : Cfg) (hl : cfg.limit = none)
    (items : List ItemRef) (acc : RunAcc) :
    processItems cfg items acc =
      { db := (savedDetails cfg items).foldl
          (fun db d => save_job cfg.iso cfg.now db d) acc.db,
        fetched_count := acc.fetched_count +
          items.countP (fun it => decide (classify cfg it = .saved)),
        skipped_count := acc.skipped_count +
          items.countP (fun it => isSkippedOutcome (classify cfg it)),
        errors := acc.errors ++ erroredIds cfg items } := by
  induction items generalizing acc with
  | nil => simp [processItems, savedDetails, erroredIds]
  | cons it rest ih =>
    cases hf : cfg.fetch it.id with
    | err =>
      have hc : classify cfg it = ItemOutcome.errored := by
        simp [classify, hf]
      simp only [processItems, hf]
      rw [ih]
      simp only [RunAcc.mk.injEq]
      refine ⟨?_, ?_, ?_, ?_⟩
      · simp [savedDetails, List.filterMap_cons, hf]
      · simp [List.countP_cons, hc] <;> omega
      · simp [List.countP_cons, hc, isSkippedOutcome] <;> omega
      · simp [erroredIds, List.filter_cons, hc, List.append_assoc]
    | ok od =>
      cases od with
      | none =>
        have hc : classify cfg it = ItemOutcome.emptyDetail := by
          simp [classify, hf]
        simp only [processItems, hf]
        rw [ih]
        simp only [RunAcc.mk.injEq]
        refine ⟨?_, ?_, ?_, ?_⟩
        · simp [savedDetails, List.filterMap_cons, hf]
        · simp [List.countP_cons, hc] <;> omega
        · simp [List.countP_cons, hc, isSkippedOutcome] <;> omega
        · simp [erroredIds, List.filter_cons, hc]
      | some d =>
        by_cases hcond : d.status = some "INACTIVE" ∨ d.ad_content = none
        · have hc : classify cfg it = ItemOutcome.statusFiltered := by
            simp [classify, hf, hcond]
          simp only [processItems, hf, if_pos hcond]
          rw [ih]
          simp only [RunAcc.mk.injEq]
          refine ⟨?_, ?_, ?_, ?_⟩
          · simp [savedDetails, List.filterMap_cons, hf, hc]
          · simp [List.countP_cons, hc] <;> omega
          · simp [List.countP_cons, hc, isSkippedOutcome] <;> omega
          · simp [erroredIds, List.filter_cons, hc]
        · by_cases hdate : detailOld cfg.iso cfg.filter_date d = true
          · have hc : classify cfg it = ItemOutcome.dateFiltered := by
              simp [classify, hf, hcond, hdate]
            simp only [processItems, hf, if_neg hcond]
            rw [if_pos hdate]
            rw [ih]
            simp only [RunAcc.mk.injEq]
            refine ⟨?_, ?_, ?_, ?_⟩
            · simp [savedDetails, List.filterMap_cons, hf, hc]
            · simp [List.countP_cons, hc] <;> omega
            · simp [List.countP_cons, hc, isSkippedOutcome] <;> omega
            · simp [erroredIds, List.filter_cons, hc]
          · have hc : classify cfg it = ItemOutcome.saved := by
              simp [classify, hf, hcond, hdate]
            simp only [processItems, hf, if_neg hcond]
            rw [if_neg hdate]
            simp only [hl, limitHit]
            rw [if_neg (by simp)]
            rw [ih]
            simp only [RunAcc.mk.injEq]
            refine ⟨?_, ?_, ?_, ?_⟩
            · simp [savedDetails, List.filterMap_cons, hf, hc,
                List.foldl_cons]
            · simp [List.countP_cons, hc] <;> omega
            · simp [List.countP_cons, hc, isSkippedOutcome] <;> omega
            · simp [erroredIds, List.filter_cons, hc]

theorem item_errors_logged_not_skipped_witness :
    processItems cfgErr [itemA, itemB] (initAcc emptyDB) =
      { db := (savedDetails cfgErr [itemA, itemB]).foldl
          (fun db d => save_job cfgErr.iso cfgErr.now db d)
          (initAcc emptyDB).db,
        fetched_count := (initAcc emptyDB).fetched_count +
          List.countP (fun it => decide (classify cfgErr it = .saved))
            [itemA, itemB],
        skipped_count := (initAcc emptyDB).skipped_count +
          List.countP (fun it => isSkippedOutcome (classify cfgErr it))
            [itemA, itemB],
        errors := (initAcc emptyDB).errors ++
          erroredIds cfgErr [itemA, itemB] } :=
  item_errors_logged_not_skipped cfgErr rfl [itemA, itemB] (initAcc emptyDB)

/-! ### Record-limit enforcement (C3) -/

theorem limitHit_none (c : Nat) : limitHit none c = false := rfl

theorem processItems_limit_bound (cfg : Cfg) (N : Nat) (hN : 1 ≤ N)
    (hl : cfg.limit = some N) :
    ∀ (items : List ItemRef) (acc : RunAcc),
      acc.fetched_count < N →
      ((limitHit cfg.limit
          (processItems cfg items acc).fetched_count = true →
        (processItems cfg items acc).fetched_count = N) ∧
       (limitHit cfg.limit
          (processItems cfg items acc).fetched_count = false →
        (processItems cfg items acc).fetched_count < N ∧
        processItems cfg items acc =
          processItems { cfg with limit := none } items acc)) := by
  intro items
  induction items with
  | nil =>
    intro acc hacc
    simp only [processItems]
    constructor
    · intro h
      rw [hl] at h
      simp [limitHit] at h
      omega
    · intro _
      exact ⟨hacc, trivial⟩
  | cons it rest ih =>
    intro acc hacc
    cases hf : cfg.fetch it.id with
    | err =>
      simp only [processItems, hf]
      exact ih _ hacc
    | ok od =>
      cases od with
      | none =>
        simp only [processItems, hf]
        exact ih _ hacc
      | some d =>
        by_cases hcond : d.status = some "INACTIVE" ∨ d.ad_content = none
        · simp only [processItems, hf, if_pos hcond]
          exact ih _ hacc
        · by_cases hdate : detailOld cfg.iso cfg.filter_date d = true
          · simp only [processItems, hf, if_neg hcond, if_pos hdate]
            exact ih _ hacc
          · simp only [processItems, hf, if_neg hcond, if_neg hdate]
            by_cases hhit :
                limitHit cfg.limit (acc.fetched_count + 1) = true
            · rw [if_pos hhit]
              have hfn : acc.fetched_count + 1 = N := by
                rw [hl] at hhit
                simp [limitHit] at hhit
                omega
              constructor
              · intro _
                simpa using hfn
              · intro h2
                rw [hhit] at h2
                simp at h2
            · rw [if_neg hhit]
              rw [if_neg (show ¬ limitHit none (acc.fetched_count + 1)
                  = true by simp [limitHit])]
              have hlt : acc.fetched_count + 1 < N := by
                rw [hl] at hhit
                simp [limitHit] at hhit
                omega
              exact ih _ hlt

theorem processPage_limit_cases (cfg : Cfg) (N : Nat) (hN : 1 ≤ N)
    (hl : cfg.limit = some N) (page : PageData) (acc : RunAcc)
    (hacc : acc.fetched_count < N) :
    ((processPage cfg page acc).2 = true →
      (processPage cfg page acc).1.fetched_count = N) ∧
    ((processPage cfg page acc).2 = false →
      (processPage cfg page acc).1.fetched_count < N ∧
      processPage cfg page acc =
        processPage { cfg with limit := none } page acc) := by
  simp only [processPage]
  by_cases hpre :
      (prefilterAux cfg.iso cfg.filter_date page.items []).1.isEmpty = true
  · simp only [if_pos hpre]
    cases hnu : truthyStr page.next_url with
    | none =>
      simp only [hnu]
      exact ⟨fun h => by simp at h, fun _ => ⟨hacc, trivial⟩⟩
    | some nu =>
      simp only [hnu]
      exact ⟨fun h => by simp at h, fun _ => ⟨hacc, trivial⟩⟩
  · simp only [if_neg hpre]
    have hitems := processItems_limit_bound cfg N hN hl
      (prefilterAux cfg.iso cfg.filter_date page.items []).1
      { acc with skipped_count := acc.skipped_count +
          (prefilterAux cfg.iso cfg.filter_date page.items []).2 } hacc
    by_cases hhit : limitHit cfg.limit
        (processItems cfg
          (prefilterAux cfg.iso cfg.filter_date page.items []).1
          { acc with skipped_count := acc.skipped_count +
              (prefilterAux cfg.iso cfg.filter_date page.items []).2
          }).fetched_count = true
    · rw [if_pos hhit]
      have hfn := hitems.1 hhit
      cases hid : truthyStr page.id with
      | none =>
        simp only [hid]
        exact ⟨fun _ => hfn, fun h2 => by simp at h2⟩
      | some cid =>
        simp only [hid]
        exact ⟨fun _ => hfn, fun h2 => by simp at h2⟩
    · obtain ⟨hlt, heq⟩ := hitems.2 (Bool.eq_false_iff.mpr hhit)
      rw [if_neg hhit]
      rw [← heq]
      simp only [limitHit_none, Bool.false_eq_true, if_false]
      cases hnu : truthyStr page.next_url with
      | none =>
        cases hid : truthyStr page.id with
        | none =>
          simp only [hnu, hid]
          exact ⟨fun h => by simp at h, fun _ => ⟨hlt, trivial⟩⟩
        | some cid =>
          simp only [hnu, hid]
          exact ⟨fun h => by simp at h, fun _ => ⟨hlt, trivial⟩⟩
      | some nu =>
        simp only [hnu]
        exact ⟨fun h => by simp at h, fun _ => ⟨hlt, trivial⟩⟩

theorem runPages_limit_cases (cfg : Cfg) (N : Nat) (hN : 1 ≤ N)
    (hl : cfg.limit = some N) :
    ∀ (pages : List PageData) (acc : RunAcc),
      acc.fetched_count < N →
      (runPages cfg pages acc).fetched_count ≤ N ∧
      ((runPages cfg pages acc).fetched_count < N →
        runPages cfg pages acc =
          runPages { cfg with limit := none } pages acc) := by
  intro pages
  induction pages with
  | nil =>
    intro acc hacc
    exact ⟨Nat.le_of_lt hacc, fun _ => rfl⟩
  | cons p rest ih =>
    intro acc hacc
    have hp := processPage_limit_cases cfg N hN hl p acc hacc
    simp only [runPages]
    by_cases hflag : (processPage cfg p acc).2 = true
    · rw [if_pos hflag]
      have hfn := hp.1 hflag
      refine ⟨Nat.le_of_eq hfn, fun h2 => ?_⟩
      omega
    · obtain ⟨hlt, heq⟩ := hp.2 (Bool.eq_false_iff.mpr hflag)
      rw [if_neg hflag]
      rw [← heq]
      rw [if_neg hflag]
      exact ih (processPage cfg p acc).1 hlt

/-- Claim C3 counterexample: (a) a run configured with record limit 0 does
not stop at 0 saved records — Python treats `--limit 0` as falsy, so both
feed records are saved; (b) with limit 1 hit on a page whose id is absent,
no cursor row is written at all, against the claim that the cursor is
written pointing at the in-progress page. -/
theorem record_limit_counterexample :
    cfgLimit0.limit = some 0 ∧
    (runSync cfgLimit0 emptyDB [pageAB]).fetched_count = 2 ∧
    ¬ (runSync cfgLimit0 emptyDB [pageAB]).fetched_count ≤ 0 ∧
    cfgLimit1.limit = some 1 ∧
    (runSync cfgLimit1 emptyDB [pageNoId]).fetched_count = 1 ∧
    (runSync cfgLimit1 emptyDB [pageNoId]).db.nav_feed_state = [] := by
  refine ⟨rfl, by decide, by decide, rfl, by decide, by decide⟩

/-- Claim C3 amended: with a configured positive record limit N (a limit of
0 is treated by the code as no limit), a run saves at most N records; when
it saves fewer than N, the limit never triggered and the run is identical
to the unlimited run, i.e. the feed was exhausted first.  When the limit
stops processing at a page whose id is truthy, the cursor is written
pointing at that in-progress page (`/api/v1/feed/<id>`, with the page's
metadata) so that page is revisited on the next run, while each completed
page had already advanced the cursor past itself; when the in-progress page
has no id, no cursor is written. -/
theorem record_limit_enforced (cfg : Cfg) (N : Nat) (db : DBState)
    (pages : List PageData) (hl : cfg.limit = some N) (hN : 1 ≤ N) :
    (runSync cfg db pages).fetched_count ≤ N ∧
    ((runSync cfg db pages).fetched_count < N →
      runSync cfg db pages = runSync { cfg with limit := none } db pages) ∧
    (∀ (page : PageData) (acc : RunAcc) (cid : String),
      (processPage cfg page acc).2 = true →
      truthyStr page.id = some cid →
      (processPage cfg page acc).1.db.nav_feed_state =
        [ { next_url := "/api/v1/feed/" ++ cid, last_job_date := none,
            updated_at := cfg.now, title := page.title,
            home_page_url := none, feed_url := none,
            description := page.description } ]) := by
  have h0 : (initAcc db).fetched_count < N := by
    simp only [initAcc]
    omega
  refine ⟨(runPages_limit_cases cfg N hN hl pages (initAcc db) h0).1,
    fun h => (runPages_limit_cases cfg N hN hl pages (initAcc db) h0).2 h,
    ?_⟩
  intro page acc cid hflag hid
  simp only [processPage] at hflag ⊢
  by_cases hpre :
      (prefilterAux cfg.iso cfg.filter_date page.items []).1.isEmpty = true
  · rw [if_pos hpre] at hflag ⊢
    cases hnu : truthyStr page.next_url with
    | none =>
      rw [hnu] at hflag
      simp at hflag
    | some nu =>
      rw [hnu] at hflag
      simp at hflag
  · rw [if_neg hpre] at hflag ⊢
    by_cases hhit : limitHit cfg.limit
        (processItems cfg
          (prefilterAux cfg.iso cfg.filter_date page.items []).1
          { acc with skipped_count := acc.skipped_count +
              (prefilterAux cfg.iso cfg.filter_date page.items []).2
          }).fetched_count = true
    · rw [if_pos hhit] at hflag ⊢
      simp only [hid] at hflag ⊢
      simp [update_feed_state, pageMeta]
    · rw [if_neg hhit] at hflag
      cases hnu : truthyStr page.next_url with
      | some nu =>
        rw [hnu] at hflag
        simp at hflag
      | none =>
        rw [hnu] at hflag
        cases hid2 : truthyStr page.id with
        | some cid2 =>
          rw [hid2] at hflag
          simp at hflag
        | none =>
          rw [hid2] at hflag
          simp at hflag

theorem record_limit_enforced_witness :
    (runSync cfgLimit1 emptyDB [pageAB]).fetched_count ≤ 1 ∧
    (processPage cfgLimit1 pageAB (initAcc emptyDB)).1.db.nav_feed_state =
      [ { next_url := "/api/v1/feed/P1", last_job_date := none,
          updated_at := 0, title := none, home_page_url := none,
          feed_url := none, description := none } ] := by
  have h := record_limit_enforced cfgLimit1 1 emptyDB [pageAB] rfl
    (by decide)
  exact ⟨h.1, h.2.2 pageAB (initAcc emptyDB) "P1" (by decide) (by decide)⟩
